import Mathlib

/-!
Verification development for the ilias-rs client library.

The Rust sources are shallowly embedded: pure string manipulation is modelled
on `List Char` / `String`, fallible operations return `Except String`, the
HTTP client is abstracted as an explicit fetch function together with a call
counter (so that fetch-counting properties are statable), and in-place
mutation of a `Reference` cell is modelled by returning the updated cell.
-/

namespace IliasRs

/- ### Character-list models of the string operations used by the source -/

/-- Rust `str::contains pat` on character lists: some suffix of `l` starts
with `pat`. -/
def listContains (l pat : List Char) : Bool :=
  match l with
  | [] => pat.isPrefixOf ([] : List Char)
  | _ :: cs => pat.isPrefixOf l || listContains cs pat

/-- Rust `str::contains` on strings. -/
def strContains (s pat : String) : Bool :=
  listContains s.toList pat.toList

/-- Rust `str::trim` on character lists (whitespace stripped from both ends). -/
def trimList (l : List Char) : List Char :=
  ((l.dropWhile Char.isWhitespace).reverse.dropWhile Char.isWhitespace).reverse

/-- Rust `str::trim` on strings. -/
def strTrim (s : String) : String :=
  (trimList s.toList).asString

/-- Rust `str::strip_prefix` on character lists. -/
def stripHead (pat l : List Char) : Option (List Char) :=
  if pat.isPrefixOf l then some (l.drop pat.length) else none

/-- Rust `str::strip_suffix` on character lists. -/
def stripTail (pat l : List Char) : Option (List Char) :=
  (stripHead pat.reverse l.reverse).map List.reverse

/-- Rust `str::replace` specialised to a single-character pattern: every
occurrence of `p` is replaced by `rep`, left to right. -/
def replaceChar (p : Char) (rep : List Char) : List Char → List Char
  | [] => []
  | c :: cs =>
    if c = p then rep ++ replaceChar p rep cs else c :: replaceChar p rep cs

/-- Rust `str::replace(", ", "_")` (used on display names): non-overlapping
replacement, left to right. -/
def replaceCommaSpace : List Char → List Char
  | ',' :: ' ' :: cs => '_' :: replaceCommaSpace cs
  | c :: cs => c :: replaceCommaSpace cs
  | [] => []

/-- The transliteration chain of `GradeSubmission::parse`
(src/exercise/grades/submission.rs lines 92–99), applied in source order:
Ä→Ae, ä→ae, Ü→Ue, ü→ue, Ö→Oe, ö→oe, ß→ss. -/
def translit (l : List Char) : List Char :=
  replaceChar 'ß' ['s', 's']
    (replaceChar 'ö' ['o', 'e']
      (replaceChar 'Ö' ['O', 'e']
        (replaceChar 'ü' ['u', 'e']
          (replaceChar 'Ü' ['U', 'e']
            (replaceChar 'ä' ['a', 'e']
              (replaceChar 'Ä' ['A', 'e'] l))))))

/-- String-level transliteration. -/
def translitStr (s : String) : String :=
  (translit s.toList).asString

/- ### The id-extraction regular expressions -/

/-- Match one alternative of the id regex at a fixed position: the literal
marker `m` followed by a greedy nonempty digit run (`\d+`). -/
def matchMarkerAt (m l : List Char) : Option (List Char) :=
  if m.isPrefixOf l then
    let run := (l.drop m.length).takeWhile Char.isDigit
    if run.isEmpty then none else some run
  else none

/-- Try the alternation's markers in order at one position (regex
alternatives are attempted left to right). -/
def tryMarkers : List (List Char) → List Char → Option (List Char)
  | [], _ => none
  | m :: ms, l =>
    match matchMarkerAt m l with
    | some r => some r
    | none => tryMarkers ms l

/-- Leftmost-first scan of the subject: the first position (left to right) at
which some alternative matches wins. -/
def scanMarkers (ms : List (List Char)) : List Char → Option (List Char)
  | [] => tryMarkers ms []
  | c :: cs =>
    match tryMarkers ms (c :: cs) with
    | some r => some r
    | none => scanMarkers ms cs

/-- The markers of the id regex `(ref_id=|target=file_|exc/)(?<id>\d+)` of
`FolderElement::parse` (src/folder.rs line 282). -/
def idMarkers : List (List Char) :=
  ["ref_id=".toList, "target=file_".toList, "exc/".toList]

/-- The id extraction of `FolderElement::parse`: first match of
`(ref_id=|target=file_|exc/)(?<id>\d+)` in the query path. -/
def extractId (s : String) : Option String :=
  (scanMarkers idMarkers s.toList).map List.asString

/-- The regex `ref_id=(?<id>\d+)` used by the Viewable branch of
`FolderElement::extract_from_querypath` (src/folder.rs line 393). -/
def extractRefId (s : String) : Option String :=
  (scanMarkers ["ref_id=".toList] s.toList).map List.asString

/- ### The lazy reference cell (src/reference.rs) -/

/-- The three-state lazy reference of src/reference.rs. -/
inductive Reference (α : Type) where
  | Unavailable : Reference α
  | Unresolved (querypath : String) : Reference α
  | Resolved (value : α) : Reference α
deriving DecidableEq

/-- `Reference::from_optional_querypath` (src/reference.rs lines 13–18). -/
def Reference.from_optional_querypath {α : Type} : Option String → Reference α
  | none => .Unavailable
  | some q => .Unresolved q

/-- `Reference::try_get_resolved` (src/reference.rs lines 20–25). -/
def Reference.try_get_resolved {α : Type} : Reference α → Option α
  | .Resolved t => some t
  | _ => none

/-- `Reference::resolve` (src/reference.rs lines 29–39).  The HTTP client's
`get_querypath` is abstracted as `fetch` and the element parser `T::parse` as
`parse`; the `Nat` argument counts the fetches performed.  The reference
component of the result models the `&self` receiver: the source borrows the
reference immutably, so it is returned unchanged in every branch. -/
def Reference.resolve {α δ : Type} (fetch : String → Except String δ)
    (parse : δ → Except String α) :
    Reference α → Nat → Except String α × Reference α × Nat
  | .Unavailable, n => (.error "Reference unavailable", .Unavailable, n)
  | .Resolved t, n => (.error "Already resolved", .Resolved t, n)
  | .Unresolved q, n =>
    ((match fetch q with
      | .error e => .error e
      | .ok d => parse d), .Unresolved q, n + 1)

/-- `Exercise::get_grades` (src/exercise.rs lines 117–136).  `fetch` abstracts
`IliasClient::get_querypath` (counted), `parse` abstracts `Grades::parse`
(which receives the page and the query path); `Except.error` models the panic
of the two `expect` calls.  The updated reference cell is returned to model
the in-place mutation `*grades = Reference::Resolved(..)`. -/
def Exercise.get_grades {γ δ : Type} (fetch : String → Except String δ)
    (parse : δ → String → Except String γ) :
    Reference γ → Nat → Except String (Option γ × Reference γ) × Nat
  | .Unavailable, n => (.ok (none, .Unavailable), n)
  | .Resolved g, n => (.ok (some g, .Resolved g), n)
  | .Unresolved q, n =>
    ((match fetch q with
      | .error _ => .error "Could not get submission page"
      | .ok d =>
        match parse d q with
        | .error _ => .error "Could not parse submission page"
        | .ok g => .ok (some g, .Resolved g)), n + 1)

/-- `Assignment::get_submission` (src/exercise/assignment.rs lines 200–223).
Same shape as `Exercise::get_grades`, except failures are surfaced as
`Result` errors (`whatever_context`) instead of panics. -/
def Assignment.get_submission {σ δ : Type} (fetch : String → Except String δ)
    (parse : δ → Except String σ) :
    Reference σ → Nat → Except String (Option σ × Reference σ) × Nat
  | .Unavailable, n => (.ok (none, .Unavailable), n)
  | .Resolved s, n => (.ok (some s, .Resolved s), n)
  | .Unresolved q, n =>
    ((match fetch q with
      | .error _ => .error "Could not get submission page"
      | .ok d =>
        match parse d with
        | .error _ => .error "Could not parse submission page"
        | .ok s => .ok (some s, .Resolved s)), n + 1)

/-- The reference transitions allowed by the spec invariant: stay put, or go
from `Unresolved` to `Resolved`. -/
def RefStep {γ : Type} (pre post : Reference γ) : Prop :=
  post = pre ∨ ∃ q v, pre = Reference.Unresolved q ∧ post = Reference.Resolved v

/- ### C1 / C2 / C3 -/

/-- C1 counterexample.  The claim says a call to `resolve` on a `Resolved`
reference is a no-op returning the existing value and that two `resolve`
calls perform exactly one fetch.  On the code, `resolve` on `Resolved 42`
fails with "Already resolved" instead of returning 42, and two `resolve`
calls on an `Unresolved` reference (which `resolve`, taking `&self`, cannot
mutate) perform two fetches. -/
theorem c1_counterexample :
    (Reference.resolve (fun _ => Except.ok 0) (fun _ => Except.ok 42)
        (Reference.Resolved 42) 0).1 = Except.error "Already resolved" ∧
    ¬ (Reference.resolve (fun _ => Except.ok 0) (fun _ => Except.ok 42)
        (Reference.Resolved 42) 0).1 = Except.ok 42 ∧
    (Reference.resolve (fun _ => Except.ok 0) (fun _ => Except.ok 42)
        (Reference.Unresolved "q")
        ((Reference.resolve (fun _ => Except.ok 0) (fun _ => Except.ok 42)
          (Reference.Unresolved "q") 0).2.2)).2.2 = 2 := by
  refine ⟨rfl, ?_, rfl⟩
  intro h
  simp [Reference.resolve] at h

/-- C1 (amended): `resolve` does not memoize and never mutates the reference
(it takes `&self`): each call on an `Unresolved` reference performs exactly
one fetch and leaves the reference `Unresolved`, and a call on a `Resolved`
reference fails with "Already resolved" without fetching instead of returning
the contained value.  The in-place `Unresolved → Resolved` memoization is
done by the callers instead: `Exercise::get_grades` resolves on first call
and returns the stored value without fetching on the second, so two
`get_grades` calls perform exactly one fetch. -/
theorem c1_resolve_not_memoizing {α γ δ : Type}
    (fetch : String → Except String δ) (pr : δ → Except String α)
    (pg : δ → String → Except String γ) (q : String) (n : Nat) (v : α)
    (d : δ) (g : γ) (hf : fetch q = Except.ok d) (hp : pg d q = Except.ok g) :
    (Reference.resolve fetch pr (Reference.Unresolved q) n).2.2 = n + 1 ∧
    (Reference.resolve fetch pr (Reference.Unresolved q) n).2.1 =
      Reference.Unresolved q ∧
    Reference.resolve fetch pr (Reference.Resolved v) n =
      (Except.error "Already resolved", Reference.Resolved v, n) ∧
    Exercise.get_grades fetch pg (Reference.Unresolved q) n =
      (Except.ok (some g, Reference.Resolved g), n + 1) ∧
    Exercise.get_grades fetch pg (Reference.Resolved g) (n + 1) =
      (Except.ok (some g, Reference.Resolved g), n + 1) := by
  refine ⟨rfl, rfl, rfl, ?_, rfl⟩
  simp [Exercise.get_grades, hf, hp]

/-- C1 witness: the amended theorem applied at a concrete fetch capability
and parser. -/
theorem c1_witness :
    Exercise.get_grades (fun _ => Except.ok 5) (fun d _ => Except.ok (d + 1))
      (Reference.Unresolved "grades") 0 =
      (Except.ok (some 6, Reference.Resolved 6), 1) ∧
    Exercise.get_grades (fun _ => Except.ok 5) (fun d _ => Except.ok (d + 1))
      (Reference.Resolved 6) 1 =
      (Except.ok (some 6, Reference.Resolved 6), 1) :=
  ⟨(c1_resolve_not_memoizing (fun _ => Except.ok 5) (fun _ => Except.ok 0)
      (fun d _ => Except.ok (d + 1)) "grades" 0 0 5 6 rfl rfl).2.2.2.1,
   (c1_resolve_not_memoizing (fun _ => Except.ok 5) (fun _ => Except.ok 0)
      (fun d _ => Except.ok (d + 1)) "grades" 0 0 5 6 rfl rfl).2.2.2.2⟩

/-- C2: `from_optional_querypath None` always yields `Unavailable`, and
`resolve` on an `Unavailable` reference always fails with the
unavailable-reference error, performing no fetch (the counter is unchanged). -/
theorem c2_unavailable {α δ : Type} (fetch : String → Except String δ)
    (parse : δ → Except String α) (n : Nat) :
    Reference.from_optional_querypath (α := α) none = Reference.Unavailable ∧
    Reference.resolve fetch parse (Reference.Unavailable : Reference α) n =
      (Except.error "Reference unavailable", Reference.Unavailable, n) :=
  ⟨rfl, rfl⟩

/-- C3: every reference-touching operation respects the tri-state invariant.
`from_optional_querypath` only creates initial `Unavailable` / `Unresolved`
states; `resolve` and `try_get_resolved` take `&self` and leave the reference
unchanged; the mutating callers `Exercise::get_grades` and
`Assignment::get_submission` only ever step `Unresolved → Resolved` or stay
put (`RefStep`); and `RefStep` itself forbids leaving `Resolved` and entering
`Unavailable` from another state. -/
theorem c3_reference_invariant {γ σ δ : Type}
    (fetch : String → Except String δ) (pg : δ → String → Except String γ)
    (ps : δ → Except String σ) (pr : δ → Except String γ) :
    (∀ q : String, Reference.from_optional_querypath (α := γ) (some q) =
        Reference.Unresolved q) ∧
    (Reference.from_optional_querypath (α := γ) none =
        Reference.Unavailable) ∧
    (∀ (r : Reference γ) (n : Nat),
        (Reference.resolve fetch pr r n).2.1 = r) ∧
    (∀ (r : Reference γ) (n : Nat) (o : Option γ) (post : Reference γ)
        (n2 : Nat), Exercise.get_grades fetch pg r n =
          (Except.ok (o, post), n2) → RefStep r post) ∧
    (∀ (r : Reference σ) (n : Nat) (o : Option σ) (post : Reference σ)
        (n2 : Nat), Assignment.get_submission fetch ps r n =
          (Except.ok (o, post), n2) → RefStep r post) ∧
    (∀ (pre post : Reference γ), RefStep pre post →
        (∀ v : γ, pre = Reference.Resolved v → post = Reference.Resolved v) ∧
        (post = Reference.Unavailable → pre = Reference.Unavailable)) := by
  refine ⟨fun _ => rfl, rfl, fun r n => ?_, fun r n o post n2 h => ?_,
    fun r n o post n2 h => ?_, fun pre post h => ?_⟩
  · cases r <;> rfl
  · cases r with
    | Unavailable =>
      simp [Exercise.get_grades] at h
      exact Or.inl h.1.2.symm
    | Resolved g =>
      simp [Exercise.get_grades] at h
      exact Or.inl h.1.2.symm
    | Unresolved q =>
      cases hf : fetch q with
      | error e => simp [Exercise.get_grades, hf] at h
      | ok d =>
        cases hp : pg d q with
        | error e => simp [Exercise.get_grades, hf, hp] at h
        | ok g =>
          simp [Exercise.get_grades, hf, hp] at h
          exact Or.inr ⟨q, g, rfl, h.1.2.symm⟩
  · cases r with
    | Unavailable =>
      simp [Assignment.get_submission] at h
      exact Or.inl h.1.2.symm
    | Resolved s =>
      simp [Assignment.get_submission] at h
      exact Or.inl h.1.2.symm
    | Unresolved q =>
      cases hf : fetch q with
      | error e => simp [Assignment.get_submission, hf] at h
      | ok d =>
        cases hp : ps d with
        | error e => simp [Assignment.get_submission, hf, hp] at h
        | ok s =>
          simp [Assignment.get_submission, hf, hp] at h
          exact Or.inr ⟨q, s, rfl, h.1.2.symm⟩
  · rcases h with h | ⟨q, v, hq, hv⟩
    · subst h
      exact ⟨fun v hv => hv, fun h => h⟩
    · subst hq
      subst hv
      exact ⟨fun v hv => (by cases hv), fun h => (by cases h)⟩

/-- C3 witness: the invariant conjuncts applied at concrete inputs. -/
theorem c3_witness :
    RefStep (Reference.Unresolved "g") (Reference.Resolved 7) ∧
    RefStep (Reference.Unresolved "s") (Reference.Resolved 8) ∧
    (Reference.resolve (fun _ => Except.ok 1) (fun d => Except.ok d)
        (Reference.Unresolved "r") 0).2.1 = Reference.Unresolved "r" := by
  have h := c3_reference_invariant (fun _ => Except.ok 1)
    (fun _ _ => Except.ok 7) (fun _ => Except.ok 8)
    (fun d => Except.ok d)
  refine ⟨?_, ?_, ?_⟩
  · exact h.2.2.2.1 (Reference.Unresolved "g") 0 (some 7)
      (Reference.Resolved 7) 1 rfl
  · exact h.2.2.2.2.1 (Reference.Unresolved "s") 0 (some 8)
      (Reference.Resolved 8) 1 rfl
  · exact h.2.2.1 (Reference.Unresolved "r") 0

/- ### The Querypath operations on URLs (src/lib.rs lines 97–112) -/

/-- Segment of the split iterator up to the next separator: used for the
second item Rust's `split('?')` yields. -/
def takeUntilQm (l : List Char) : List Char :=
  l.takeWhile (fun c => !(c = '?'))

/-- Rust `querypath.split('?')` as consumed by `set_querypath`: the first two
items of the split iterator — everything before the first '?', and (when a
'?' is present) the segment between the first and second '?'. -/
def splitQ : List Char → List Char × Option (List Char)
  | [] => ([], none)
  | c :: cs =>
    if c = '?' then ([], some (takeUntilQm cs))
    else
      let r := splitQ cs
      (c :: r.1, r.2)

/-- Model of a `reqwest::Url` (the url crate) as consumed by the
`Querypath` impl in src/lib.rs: the stored path and optional query.
`path()` and `query()` return the stored components unchanged; `set_path`
and `set_query` normalise their input first (`urlSetPath`, `urlSetQuery`). -/
structure Url where
  path : String
  query : Option String
deriving DecidableEq

/-- The segment separators of a special (http/https) URL path: the url
crate treats a backslash like a slash (WHATWG path state). -/
def isSegSep (c : Char) : Bool :=
  c = '/' || c = '\\'

/-- Split a path into segments at the separators. -/
def segmentSplit : List Char → List (List Char)
  | [] => [[]]
  | c :: cs =>
    if isSegSep c then [] :: segmentSplit cs
    else
      match segmentSplit cs with
      | [] => [[c]]
      | s :: ss => (c :: s) :: ss

/-- Rejoin segments with the canonical separator. -/
def joinSegs : List (List Char) → List Char
  | [] => []
  | [s] => s
  | s :: rest => s ++ '/' :: joinSegs rest

/-- The dot-segment handling of the WHATWG path state as run by
`url::Url::set_path`: a double-dot segment pops the previous segment, a
single-dot segment is dropped, and either of them at the end of the input
leaves a trailing empty segment (a trailing slash). -/
def processSegments : List (List Char) → List (List Char) → List (List Char)
  | acc, [] => acc.reverse
  | acc, [b] =>
    if b = ['.', '.'] then (acc.drop 1).reverse ++ [[]]
    else if b = ['.'] then acc.reverse ++ [[]]
    else (b :: acc).reverse
  | acc, b :: rest =>
    if b = ['.', '.'] then processSegments (acc.drop 1) rest
    else if b = ['.'] then processSegments acc rest
    else processSegments (b :: acc) rest

/-- Uppercase hexadecimal digit. -/
def hexDigitChar (n : Nat) : Char :=
  if n < 10 then Char.ofNat (48 + n) else Char.ofNat (55 + n)

/-- One percent-encoded byte. -/
def percentEncodeByte (n : Nat) : List Char :=
  ['%', hexDigitChar (n / 16 % 16), hexDigitChar (n % 16)]

/-- UTF-8 bytes of one code point. -/
def utf8Bytes (c : Char) : List Nat :=
  let n := c.toNat
  if n < 0x80 then [n]
  else if n < 0x800 then [0xc0 + n / 64, 0x80 + n % 64]
  else if n < 0x10000 then
    [0xe0 + n / 4096, 0x80 + n / 64 % 64, 0x80 + n % 64]
  else
    [0xf0 + n / 262144, 0x80 + n / 4096 % 64, 0x80 + n / 64 % 64,
      0x80 + n % 64]

/-- The WHATWG path percent-encode set used by `url::Url::set_path`: C0
controls, space, the double quote, hash, angle brackets, question mark,
backtick, braces, and every code point from DEL upwards. -/
def inPathEncodeSet (c : Char) : Bool :=
  c.toNat < 0x20 || c.toNat ≥ 0x7f || c = ' ' || c = '"' || c = '#' ||
    c = '<' || c = '>' || c = '?' || c.toNat = 0x60 || c.toNat = 0x7b ||
    c.toNat = 0x7d

/-- The WHATWG query percent-encode set used by `url::Url::set_query` on a
special URL: C0 controls, space, the double quote, hash, angle brackets,
the apostrophe (code point 39), and every code point from DEL upwards. -/
def inQueryEncodeSet (c : Char) : Bool :=
  c.toNat < 0x20 || c.toNat ≥ 0x7f || c = ' ' || c = '"' || c = '#' ||
    c = '<' || c = '>' || c.toNat = 39

/-- Percent-encode the characters of the encode set, leaving the rest. -/
def percentEncodeWith (enc : Char → Bool) : List Char → List Char
  | [] => []
  | c :: cs =>
    (if enc c then ((utf8Bytes c).map percentEncodeByte).flatten else [c]) ++
      percentEncodeWith enc cs

/-- Consume one leading segment separator (the WHATWG path-start state). -/
def dropLeadSep : List Char → List Char
  | [] => []
  | c :: rest => if isSegSep c then rest else c :: rest

/-- Model of `url::Url::set_path` on an http(s) URL: one leading separator
is consumed, the rest is split into segments (a backslash separates like a
slash), dot segments are resolved, each segment is percent-encoded with
the path set, and the stored path is rooted with a leading slash — in
particular a non-rooted input comes back with a slash prepended.  A
percent sign is kept as-is and percent-encoded spellings of a dot segment
are not recognised as dots here, so statements proved about this model
keep path characters inside `pathPlainChar`. -/
def urlSetPath (p : String) : String :=
  ('/' :: joinSegs ((processSegments [] (segmentSplit
    (dropLeadSep p.toList))).map (percentEncodeWith inPathEncodeSet))).asString

/-- Model of `url::Url::set_query` on a special URL: the query is
percent-encoded with the query set. -/
def urlSetQuery (q : String) : String :=
  (percentEncodeWith inQueryEncodeSet q.toList).asString

/-- A path character that `url::Url::set_path` stores unchanged and whose
treatment the model covers exactly: outside the path percent-encode set,
not a backslash (an alternate separator) and not a percent sign. -/
def pathPlainChar (c : Char) : Bool :=
  !inPathEncodeSet c && !(c = '\\') && !(c = '%')

/-- `Querypath::get_querypath` for `Url` (src/lib.rs lines 103–105). -/
def Url.get_querypath (u : Url) : String :=
  u.path ++ "?" ++ u.query.getD ""

/-- `Querypath::set_querypath` for `Url` (src/lib.rs lines 107–111):
`set_path` on the part before the first question mark and `set_query` on
the optional second split item, each applying the url crate's
normalisation. -/
def Url.set_querypath (u : Url) (querypath : String) : Url :=
  let r := splitQ querypath.toList
  { u with path := urlSetPath r.1.asString,
           query := (r.2.map List.asString).map urlSetQuery }

/- ### Addressing (src/folder.rs, src/exercise.rs) -/

/-- `Folder::type_identifier` (src/folder.rs lines 71–73). -/
def Folder.type_identifier : Option String := some "fold"

/-- `Folder::querypath_from_id` (src/folder.rs lines 75–81):
`goto.php/fold/<id>` (the `unwrap` of the type identifier yields `"fold"`). -/
def Folder.querypath_from_id (id : String) : Option String :=
  some ("goto.php/" ++ "fold" ++ "/" ++ id)

/-- `Exercise::type_identifier` (src/exercise.rs lines 33–35). -/
def Exercise.type_identifier : Option String := some "exc"

/-- `Exercise::querypath_from_id` (src/exercise.rs lines 37–43):
`goto.php?target=exc_<id>&client_id=produktiv`. -/
def Exercise.querypath_from_id (id : String) : Option String :=
  some ("goto.php?target=" ++ "exc" ++ "_" ++ id ++ "&client_id=produktiv")

/- ### The already-authenticated check (src/client.rs lines 180–189) -/

/-- The base origin of the platform (src/lib.rs line 15). -/
def ILIAS_URL : String := "https://ilias.studium.kit.edu"

/-- Rust `str::starts_with` on strings. -/
def strStartsWith (s pat : String) : Bool :=
  pat.toList.isPrefixOf s.toList

/-- The `is_ilias` check of `IliasClient::authenticate` (src/client.rs lines
181–185): the landing URL's full string is tested with `starts_with` against
the base URL's bare host string (`base_url.host_str()`). -/
def IliasClient.is_ilias (landingUrl baseHost : String) : Bool :=
  strStartsWith landingUrl baseHost

/-- Characters that may occur in the host component of a URL authority
(anything up to the first '/', '?' or ':'). -/
def isHostChar (c : Char) : Bool :=
  !(c = '/' || c = '?' || c = ':')

/-- Host component of an absolute http(s) URL.  This follows the claim's
words "the landing address's host matches the platform's own host"; it is a
spec-side definition used only to state what the claim asserts, because the
source compares against the full URL string instead of the host. -/
def urlHostOf (s : String) : Option String :=
  if strStartsWith s "https://" then
    some (((s.toList.drop 8).takeWhile isHostChar).asString)
  else if strStartsWith s "http://" then
    some (((s.toList.drop 7).takeWhile isHostChar).asString)
  else none

/- ### C4 -/

/-- C4: the claim says the handshake ends early with success exactly when the
landing address's host equals the platform's own host.  The code instead
evaluates `landing.as_str().starts_with(base.host_str())`, comparing the full
URL string (which begins with the scheme) against the bare host, so the check
is `false` even on a landing page of the platform itself: at the concrete
landing address below both hosts are `ilias.studium.kit.edu`, yet `is_ilias`
is `false` and the handshake does not end early.  The code contradicts its
own intent (the variable is named `is_ilias` and the branch prints "already
logged in"), so this is a code bug rather than a spec error. -/
theorem c4_host_check_never_fires :
    urlHostOf "https://ilias.studium.kit.edu/ilias.php?baseClass=ilDashboardGUI" =
      some "ilias.studium.kit.edu" ∧
    urlHostOf ILIAS_URL = some "ilias.studium.kit.edu" ∧
    IliasClient.is_ilias
      "https://ilias.studium.kit.edu/ilias.php?baseClass=ilDashboardGUI"
      "ilias.studium.kit.edu" = false :=
  ⟨rfl, rfl, rfl⟩

/- ### C6 -/

/-- C6 counterexample: the claim asserts
`extract_id(address_for(type, id)) = id` for Folder ("fold") and Exercise
("exc"), but the id regex `(ref_id=|target=file_|exc/)(?<id>\d+)` matches
neither constructed address: extraction yields no match instead of "123". -/
theorem c6_counterexample :
    Folder.querypath_from_id "123" = some "goto.php/fold/123" ∧
    extractId "goto.php/fold/123" = none ∧
    Exercise.querypath_from_id "123" =
      some "goto.php?target=exc_123&client_id=produktiv" ∧
    extractId "goto.php?target=exc_123&client_id=produktiv" = none :=
  ⟨rfl, rfl, rfl, rfl⟩

lemma matchMarkerAt_eq_none {m l : List Char} (h : ¬ m <+: l) :
    matchMarkerAt m l = none := by
  unfold matchMarkerAt
  rw [if_neg]
  intro hp
  exact h (List.isPrefixOf_iff_prefix.mp hp)

lemma tryMarkers_eq_none {ms : List (List Char)} {l : List Char}
    (h : ∀ m ∈ ms, ¬ m <+: l) : tryMarkers ms l = none := by
  induction ms with
  | nil => rfl
  | cons m ms ih =>
    unfold tryMarkers
    rw [matchMarkerAt_eq_none (h m (List.mem_cons_self m ms))]
    exact ih fun x hx => h x (List.mem_cons_of_mem m hx)

lemma scanMarkers_eq_none {ms : List (List Char)} {l : List Char}
    (h : ∀ m ∈ ms, ¬ m <:+: l) : scanMarkers ms l = none := by
  induction l with
  | nil =>
    exact tryMarkers_eq_none fun m hm hp => h m hm hp.isInfix
  | cons c cs ih =>
    unfold scanMarkers
    rw [tryMarkers_eq_none fun m hm hp => h m hm hp.isInfix]
    exact ih fun m hm hi => h m hm (List.infix_cons hi)

lemma not_infix_of_missing_char {m l : List Char} {c : Char} (hc : c ∈ m)
    (hl : c ∉ l) : ¬ m <:+: l :=
  fun h => hl (h.subset hc)

lemma toList_strAppend (a b : String) : (a ++ b).toList = a.toList ++ b.toList := by
  cases a
  cases b
  rfl

/-- C6 (amended): the round-trip fails for both discriminated content types.
For every numeric id, the id-extraction regex
`(ref_id=|target=file_|exc/)(?<id>\d+)` matches nothing in the constructed
folder address `goto.php/fold/<id>` nor in the constructed exercise address
`goto.php?target=exc_<id>&client_id=produktiv`: `extract_id` fails with
no-match instead of returning the id (the extraction patterns target scraped
listing addresses, not the constructed goto addresses). -/
theorem c6_no_roundtrip (id : String)
    (hdig : ∀ c ∈ id.toList, c.isDigit = true) :
    Folder.querypath_from_id id = some ("goto.php/fold/" ++ id) ∧
    extractId ("goto.php/fold/" ++ id) = none ∧
    Exercise.querypath_from_id id =
      some ("goto.php?target=exc_" ++ (id ++ "&client_id=produktiv")) ∧
    extractId ("goto.php?target=exc_" ++ (id ++ "&client_id=produktiv")) =
      none := by
  refine ⟨rfl, ?_, ?_, ?_⟩
  · unfold extractId
    rw [scanMarkers_eq_none]
    · rfl
    intro m hm
    rw [toList_strAppend]
    simp only [idMarkers, List.mem_cons, List.not_mem_nil, or_false] at hm
    rcases hm with hm | hm | hm <;> subst hm
    · refine not_infix_of_missing_char (c := '=') (by decide) ?_
      intro hc
      rcases List.mem_append.mp hc with hc | hc
      · exact absurd hc (by decide)
      · have := hdig _ hc
        simp at this
    · refine not_infix_of_missing_char (c := '=') (by decide) ?_
      intro hc
      rcases List.mem_append.mp hc with hc | hc
      · exact absurd hc (by decide)
      · have := hdig _ hc
        simp at this
    · refine not_infix_of_missing_char (c := 'x') (by decide) ?_
      intro hc
      rcases List.mem_append.mp hc with hc | hc
      · exact absurd hc (by decide)
      · have := hdig _ hc
        simp at this
  · show some _ = some _
    rw [String.append_assoc, String.append_assoc]
    rfl
  · unfold extractId
    rw [scanMarkers_eq_none]
    · rfl
    intro m hm
    rw [toList_strAppend, toList_strAppend]
    simp only [idMarkers, List.mem_cons, List.not_mem_nil, or_false] at hm
    rcases hm with hm | hm | hm <;> subst hm
    · refine not_infix_of_missing_char (c := 'f') (by decide) ?_
      intro hc
      rcases List.mem_append.mp hc with hc | hc
      · exact absurd hc (by decide)
      rcases List.mem_append.mp hc with hc | hc
      · have := hdig _ hc
        simp at this
      · exact absurd hc (by decide)
    · refine not_infix_of_missing_char (c := 'f') (by decide) ?_
      intro hc
      rcases List.mem_append.mp hc with hc | hc
      · exact absurd hc (by decide)
      rcases List.mem_append.mp hc with hc | hc
      · have := hdig _ hc
        simp at this
      · exact absurd hc (by decide)
    · refine not_infix_of_missing_char (c := '/') (by decide) ?_
      intro hc
      rcases List.mem_append.mp hc with hc | hc
      · exact absurd hc (by decide)
      rcases List.mem_append.mp hc with hc | hc
      · have := hdig _ hc
        simp at this
      · exact absurd hc (by decide)

/-- C6 witness: the amended no-round-trip theorem at the concrete id 123. -/
theorem c6_witness :
    extractId ("goto.php/fold/" ++ "123") = none ∧
    extractId ("goto.php?target=exc_" ++ ("123" ++ "&client_id=produktiv")) =
      none :=
  ⟨(c6_no_roundtrip "123" (by decide)).2.1,
   (c6_no_roundtrip "123" (by decide)).2.2.2⟩

/- ### C10 -/

lemma takeUntilQm_of_no_qm {l : List Char} (h : '?' ∉ l) :
    takeUntilQm l = l := by
  unfold takeUntilQm
  rw [List.takeWhile_eq_self_iff]
  intro a ha
  simp only [Bool.not_eq_true', decide_eq_false_iff_not]
  intro hq
  subst hq
  exact h ha

lemma splitQ_of_count_one : ∀ l : List Char, l.count '?' = 1 →
    ∃ a b, splitQ l = (a, some b) ∧ l = a ++ '?' :: b := by
  intro l
  induction l with
  | nil => intro h; simp at h
  | cons c cs ih =>
    intro h
    by_cases hc : c = '?'
    · subst hc
      rw [List.count_cons_self] at h
      have h0 : '?' ∉ cs := List.count_eq_zero.mp (by omega)
      exact ⟨[], cs, by simp [splitQ, takeUntilQm_of_no_qm h0], by simp⟩
    · rw [List.count_cons_of_ne (Ne.symm hc)] at h
      obtain ⟨a, b, h2, h3⟩ := ih h
      refine ⟨c :: a, b, ?_, by simp [h3]⟩
      simp [splitQ, hc, h2]

lemma asString_append (a b : List Char) :
    (a ++ b).asString = a.asString ++ b.asString :=
  rfl

lemma segmentSplit_ne_nil (l : List Char) : segmentSplit l ≠ [] := by
  cases l with
  | nil => simp [segmentSplit]
  | cons c cs =>
    by_cases h : isSegSep c = true
    · simp [segmentSplit, h]
    · simp only [segmentSplit, h]
      cases hss : segmentSplit cs <;> simp

lemma joinSegs_cons_cons (c : Char) (s : List Char) (ss : List (List Char)) :
    joinSegs ((c :: s) :: ss) = c :: joinSegs (s :: ss) := by
  cases ss with
  | nil => rfl
  | cons t ts => rfl

lemma joinSegs_segmentSplit : ∀ {l : List Char}, '\\' ∉ l →
    joinSegs (segmentSplit l) = l := by
  intro l
  induction l with
  | nil => intro h; rfl
  | cons c cs ih =>
    intro h
    rw [List.mem_cons, not_or] at h
    by_cases hsep : isSegSep c = true
    · have hc : c = '/' := by
        simp only [isSegSep, Bool.or_eq_true, decide_eq_true_eq] at hsep
        rcases hsep with h1 | h1
        · exact h1
        · exact absurd h1.symm h.1
      subst hc
      have hs1 : segmentSplit ('/' :: cs) = [] :: segmentSplit cs := by
        simp [segmentSplit, isSegSep]
      rw [hs1]
      cases hss : segmentSplit cs with
      | nil => exact absurd hss (segmentSplit_ne_nil cs)
      | cons s ss =>
        have ih2 := ih h.2
        rw [hss] at ih2
        show [] ++ '/' :: joinSegs (s :: ss) = '/' :: cs
        rw [ih2]
        rfl
    · cases hss : segmentSplit cs with
      | nil => exact absurd hss (segmentSplit_ne_nil cs)
      | cons s ss =>
        have hs2 : segmentSplit (c :: cs) = (c :: s) :: ss := by
          simp [segmentSplit, hsep, hss]
        have ih2 := ih h.2
        rw [hss] at ih2
        rw [hs2, joinSegs_cons_cons, ih2]

lemma mem_of_mem_segmentSplit : ∀ {l seg : List Char} {c : Char},
    seg ∈ segmentSplit l → c ∈ seg → c ∈ l := by
  intro l
  induction l with
  | nil =>
    intro seg c hs hc
    simp [segmentSplit] at hs
    subst hs
    cases hc
  | cons x xs ih =>
    intro seg c hs hc
    by_cases hx : isSegSep x = true
    · rw [show segmentSplit (x :: xs) = [] :: segmentSplit xs from
        by simp [segmentSplit, hx]] at hs
      rcases List.mem_cons.mp hs with h1 | h1
      · subst h1; cases hc
      · exact List.mem_cons_of_mem x (ih h1 hc)
    · cases hss : segmentSplit xs with
      | nil =>
        rw [show segmentSplit (x :: xs) = [[x]] from
          by simp [segmentSplit, hx, hss]] at hs
        simp only [List.mem_singleton] at hs
        subst hs
        simp only [List.mem_singleton] at hc
        rw [hc]
        exact List.mem_cons_self _ _
      | cons s ss =>
        rw [show segmentSplit (x :: xs) = (x :: s) :: ss from
          by simp [segmentSplit, hx, hss]] at hs
        rcases List.mem_cons.mp hs with h1 | h1
        · subst h1
          rcases List.mem_cons.mp hc with h2 | h2
          · rw [h2]; exact List.mem_cons_self _ _
          · exact List.mem_cons_of_mem x
              (ih (by rw [hss]; exact List.mem_cons_self s ss) h2)
        · exact List.mem_cons_of_mem x
            (ih (by rw [hss]; exact List.mem_cons_of_mem s h1) hc)

lemma processSegments_no_dots : ∀ (l acc : List (List Char)),
    (∀ seg ∈ l, seg ≠ ['.'] ∧ seg ≠ ['.', '.']) →
    processSegments acc l = acc.reverse ++ l := by
  intro l
  induction l with
  | nil => intro acc h; simp [processSegments]
  | cons b rest ih =>
    intro acc h
    have hb := h b (List.mem_cons_self b rest)
    cases rest with
    | nil => simp [processSegments, hb.1, hb.2]
    | cons c rest2 =>
      have hstep : processSegments acc (b :: c :: rest2) =
          processSegments (b :: acc) (c :: rest2) := by
        simp [processSegments, hb.1, hb.2]
      rw [hstep, ih _ (fun seg hs => h seg (List.mem_cons_of_mem b hs))]
      simp

lemma percentEncodeWith_id {enc : Char → Bool} :
    ∀ {l : List Char}, (∀ c ∈ l, enc c = false) →
      percentEncodeWith enc l = l := by
  intro l
  induction l with
  | nil => intro h; rfl
  | cons c cs ih =>
    intro h
    have hc := h c (List.mem_cons_self c cs)
    simp [percentEncodeWith, hc,
      ih fun x hx => h x (List.mem_cons_of_mem c hx)]

lemma map_self_of_forall {α : Type} {f : α → α} :
    ∀ {l : List α}, (∀ x ∈ l, f x = x) → l.map f = l := by
  intro l
  induction l with
  | nil => intro h; rfl
  | cons x xs ih =>
    intro h
    rw [List.map_cons, h x (List.mem_cons_self x xs),
      ih fun y hy => h y (List.mem_cons_of_mem x hy)]

lemma urlSetPath_plain {a2 : List Char}
    (hplain : ∀ c ∈ a2, pathPlainChar c = true)
    (hsegs : ∀ seg ∈ segmentSplit a2, seg ≠ ['.'] ∧ seg ≠ ['.', '.']) :
    urlSetPath ('/' :: a2).asString = ('/' :: a2).asString := by
  unfold urlSetPath
  rw [List.toList_asString]
  have h1 : dropLeadSep ('/' :: a2) = a2 := by
    simp [dropLeadSep, isSegSep]
  rw [h1, processSegments_no_dots _ [] hsegs]
  simp only [List.reverse_nil, List.nil_append]
  have h2 : (segmentSplit a2).map (percentEncodeWith inPathEncodeSet) =
      segmentSplit a2 := by
    apply map_self_of_forall
    intro seg hs
    apply percentEncodeWith_id
    intro c hcs
    have hp := hplain c (mem_of_mem_segmentSplit hs hcs)
    unfold pathPlainChar at hp
    simp only [Bool.and_eq_true, Bool.not_eq_eq_eq_not, Bool.not_true] at hp
    exact hp.1.1
  rw [h2, joinSegs_segmentSplit]
  intro hbs
  have := hplain _ hbs
  simp [pathPlainChar] at this

lemma urlSetQuery_plain {b : List Char}
    (h : ∀ c ∈ b, inQueryEncodeSet c = false) :
    urlSetQuery b.asString = b.asString := by
  unfold urlSetQuery
  rw [List.toList_asString, percentEncodeWith_id h]

/-- C10 counterexample: the claim says set then get returns every
one-question-mark string unchanged, but on the non-rooted input a?b the url
crate's `set_path` prepends a slash, so the program returns /a?b. -/
theorem c10_counterexample :
    (Url.set_querypath ⟨"/", none⟩ "a?b").get_querypath = "/a?b" ∧
    ("/a?b" : String) ≠ "a?b" :=
  ⟨rfl, by decide⟩

/-- C10 (amended): `set_querypath` followed by `get_querypath` returns the
input unchanged for every string with exactly one question mark whose path
part the url crate stores verbatim — it is rooted (leading slash) and made
of plain path characters (outside the path percent-encode set, no
backslash, no percent sign) with no single- or double-dot segments — and
whose query part has no characters of the query percent-encode set; a
non-rooted input such as a?b instead comes back with a slash prepended.
On a URL whose query component is absent, `get_querypath` returns the path
with a trailing question mark appended, as claimed. -/
theorem c10_querypath_roundtrip (u u2 : Url) (s : String)
    (hcount : s.toList.count '?' = 1)
    (hroot : s.toList.head? = some '/')
    (hpath : ∀ c ∈ (splitQ s.toList).1, pathPlainChar c = true)
    (hsegs : ∀ seg ∈ segmentSplit ((splitQ s.toList).1.drop 1),
        seg ≠ ['.'] ∧ seg ≠ ['.', '.'])
    (hquery : ∀ c ∈ (splitQ s.toList).2.getD [], inQueryEncodeSet c = false)
    (h2 : u2.query = none) :
    (u.set_querypath s).get_querypath = s ∧
    u2.get_querypath = u2.path ++ "?" := by
  constructor
  · obtain ⟨a, b, hsplit, heq⟩ := splitQ_of_count_one s.toList hcount
    obtain ⟨a2, ha⟩ : ∃ a2, a = '/' :: a2 := by
      cases a with
      | nil =>
        rw [heq] at hroot
        simp only [List.nil_append, List.head?_cons,
          Option.some.injEq] at hroot
        cases hroot
      | cons c a2 =>
        rw [heq] at hroot
        simp only [List.cons_append, List.head?_cons,
          Option.some.injEq] at hroot
        exact ⟨a2, by rw [hroot]⟩
    subst ha
    have hp2 : ∀ c ∈ a2, pathPlainChar c = true := by
      rw [hsplit] at hpath
      exact fun c hc => hpath c (List.mem_cons_of_mem _ hc)
    have hs2 : ∀ seg ∈ segmentSplit a2, seg ≠ ['.'] ∧ seg ≠ ['.', '.'] := by
      rw [hsplit] at hsegs
      exact hsegs
    have hq2 : ∀ c ∈ b, inQueryEncodeSet c = false := by
      rw [hsplit] at hquery
      exact hquery
    unfold Url.set_querypath Url.get_querypath
    rw [hsplit]
    dsimp only
    rw [urlSetPath_plain hp2 hs2]
    show ('/' :: a2).asString ++ "?" ++ urlSetQuery b.asString = s
    rw [urlSetQuery_plain hq2]
    have hs : s = (('/' :: a2) ++ '?' :: b).asString := by
      rw [← heq, String.asString_toList]
    rw [hs, show ('?' :: b) = ['?'] ++ b from rfl, asString_append,
      asString_append, ← String.append_assoc]
    rfl
  · unfold Url.get_querypath
    rw [h2]
    exact String.append_empty _

/-- C10 witness: the round-trip at the rooted querypath /a?b and a
query-less URL. -/
theorem c10_witness :
    (Url.set_querypath ⟨"/", none⟩ "/a?b").get_querypath = "/a?b" ∧
    Url.get_querypath ⟨"p", none⟩ = "p" ++ "?" :=
  ⟨(c10_querypath_roundtrip ⟨"/", none⟩ ⟨"p", none⟩ "/a?b" (by decide) rfl
      (by decide) (by decide) (by decide) rfl).1,
   (c10_querypath_roundtrip ⟨"/", none⟩ ⟨"p", none⟩ "/a?b" (by decide) rfl
      (by decide) (by decide) (by decide) rfl).2⟩

/- ### The credential-submission step of the handshake (src/client.rs) -/

/-- An identity-provider page as queried by the handshake: the first
`input[name="csrf_token"]` element when present (with its optional `value`
attribute), the `action` attributes of the `form[method="post"]` elements in
document order, and the first `input[name="SAMLResponse"]` element when
present (with its optional `value` attribute). -/
structure AuthPage where
  csrfInput : Option (Option String)
  postForms : List (Option String)
  samlInput : Option (Option String)

/-- A POST request issued during the handshake: target address and form
fields. -/
structure PostRequest where
  action : String
  form : List (String × String)
deriving DecidableEq

/-- The credential form data of `IliasClient::authenticate`
(src/client.rs lines 212–217). -/
def credentialForm (csrf username password : String) :
    List (String × String) :=
  [("csrf_token", csrf), ("j_username", username), ("j_password", password),
    ("_eventId_proceed", "")]

/-- The credential-submission step of `IliasClient::authenticate`
(src/client.rs lines 197–241): if the login page carries a CSRF token input,
POST username, password and that token to the action of the page's first
POST-method form and continue with the response body; otherwise issue no
request and continue with the login page itself.  `postResponse` abstracts
the transport's form POST; the returned list collects the requests this step
issues, so that request-counting properties are statable. -/
def IliasClient.credential_step
    (postResponse : String → List (String × String) → AuthPage)
    (username password : String) (page : AuthPage) :
    Except String (AuthPage × List PostRequest) :=
  match page.csrfInput with
  | some csrfAttr =>
    match csrfAttr with
    | none => .error "Could not get csrf token"
    | some csrf =>
      match page.postForms with
      | [] => .error "Could not get login querypath element"
      | act? :: _ =>
        match act? with
        | none => .error "Could not get login querypath action"
        | some act =>
          .ok (postResponse act (credentialForm csrf username password),
            [⟨act, credentialForm csrf username password⟩])
  | none => .ok (page, [])

/-- C5: given a login page containing a CSRF token input, the handshake
issues exactly one credential POST whose form carries that exact token, the
username and the password, addressed to the action of the page's first
POST-method form, and continues with the response; given a page without the
CSRF field, it issues no credential POST and continues with the same page
body (which the subsequent assertion extraction consumes). -/
theorem c5_credential_step
    (postResponse : String → List (String × String) → AuthPage)
    (username password csrf act : String) (page pageNoCsrf : AuthPage)
    (h1 : page.csrfInput = some (some csrf))
    (h2 : page.postForms.head? = some (some act))
    (h3 : pageNoCsrf.csrfInput = none) :
    IliasClient.credential_step postResponse username password page =
      Except.ok (postResponse act (credentialForm csrf username password),
        [⟨act, credentialForm csrf username password⟩]) ∧
    ("csrf_token", csrf) ∈ credentialForm csrf username password ∧
    ("j_username", username) ∈ credentialForm csrf username password ∧
    ("j_password", password) ∈ credentialForm csrf username password ∧
    IliasClient.credential_step postResponse username password pageNoCsrf =
      Except.ok (pageNoCsrf, []) := by
  obtain ⟨tl, htl⟩ : ∃ tl, page.postForms = some act :: tl := by
    cases hf : page.postForms with
    | nil => rw [hf] at h2; cases h2
    | cons a tl =>
      rw [hf] at h2
      simp only [List.head?_cons, Option.some.injEq] at h2
      exact ⟨tl, by rw [h2]⟩
  refine ⟨?_, ?_, ?_, ?_, ?_⟩
  · simp [IliasClient.credential_step, h1, htl]
  · simp [credentialForm]
  · simp [credentialForm]
  · simp [credentialForm]
  · simp [IliasClient.credential_step, h3]

/-- C5 witness: the credential step at a concrete login page with a CSRF
token and at one without. -/
theorem c5_witness :
    IliasClient.credential_step (fun _ _ => ⟨none, [], some (some "SAML")⟩)
      "user" "pass" ⟨some (some "TOK"), [some "idp/Authn"], none⟩ =
      Except.ok (⟨none, [], some (some "SAML")⟩,
        [⟨"idp/Authn", credentialForm "TOK" "user" "pass"⟩]) ∧
    ("csrf_token", "TOK") ∈ credentialForm "TOK" "user" "pass" ∧
    IliasClient.credential_step (fun _ _ => ⟨none, [], some (some "SAML")⟩)
      "user" "pass" ⟨none, [some "idp/Authn"], some (some "SAML")⟩ =
      Except.ok (⟨none, [some "idp/Authn"], some (some "SAML")⟩, []) := by
  have h := c5_credential_step (fun _ _ => ⟨none, [], some (some "SAML")⟩)
    "user" "pass" "TOK" "idp/Authn" ⟨some (some "TOK"), [some "idp/Authn"], none⟩
    ⟨none, [some "idp/Authn"], some (some "SAML")⟩ rfl rfl rfl
  exact ⟨h.1, h.2.1, h.2.2.2.2⟩

/- ### Folder-element classification (src/folder.rs) -/

/-- The `File` record of src/file.rs (the module is declared in src/lib.rs
but its file is not under src/); the shape is reconstructed from its
construction sites (src/folder.rs lines 368–374, src/exercise/assignment.rs
lines 159–165).  The parsed date is abstracted to the raw property text that
parsed (see `findDateProperty`). -/
structure File where
  name : String
  description : String
  date : Option String
  id : Option String
  download_querypath : Option String
deriving DecidableEq

/-- The `FolderElement` variants (src/folder.rs lines 17–43). -/
inductive FolderElement where
  | File (file : IliasRs.File) (deletion_querypath : Option String)
  | Exercise (name description id querypath : String)
      (deletion_querypath : Option String)
  | Opencast (name description id querypath : String)
      (deletion_querypath : Option String)
  | Viewable (name description id querypath : String)
      (deletion_querypath : Option String)
deriving DecidableEq

/-- The variant kind of a folder element. -/
inductive ElementKind where
  | file
  | opencast
  | viewable
  | exercise
deriving DecidableEq

/-- Kind projection of a folder element. -/
def FolderElement.kind : FolderElement → ElementKind
  | .File .. => .file
  | .Opencast .. => .opencast
  | .Viewable .. => .viewable
  | .Exercise .. => .exercise

/-- The file-download marker (src/folder.rs lines 340–343). -/
def fileMarker (qp : String) : Bool :=
  strContains qp "target=file_" ||
    (strContains qp "baseClass=ilrepositorygui" &&
      strContains qp "cmd=sendfile")

/-- The plugin-forward (Opencast) marker (src/folder.rs lines 380–383). -/
def opencastMarker (qp : String) : Bool :=
  strContains qp "baseClass=ilObjPluginDispatchGUI" &&
    strContains qp "cmd=forward" && strContains qp "forwardCmd=showContent"

/-- The generic-view marker (src/folder.rs line 391). -/
def viewMarker (qp : String) : Bool :=
  strContains qp "baseClass=ilrepositorygui" && strContains qp "cmd=view"

/-- The exercise-path marker (src/folder.rs line 405). -/
def excMarker (qp : String) : Bool :=
  strContains qp "/exc/"

/-- The date-property loop of the File branch (src/folder.rs lines 351–360):
consume property texts until one parses as a date.  `parse_date`
(chrono-based and dependent on the current local time) is abstracted to the
success predicate `dateOk`; the matched property text stands in for the
parsed date. -/
def findDateProperty (dateOk : String → Bool) :
    List String → Except String String
  | [] => .error "No date properties left"
  | p :: ps => if dateOk p then .ok p else findDateProperty dateOk ps

/-- `FolderElement::extract_from_querypath` (src/folder.rs lines 331–416):
the ordered first-match decision list over the query path.  The missing-
extension `expect` panic is modelled as an error. -/
def FolderElement.extract_from_querypath (dateOk : String → Bool)
    (querypath name description id : String)
    (deletion_querypath : Option String) (properties : List String) :
    Except String FolderElement :=
  if fileMarker querypath then
    match properties with
    | [] => .error "Could not find file extension"
    | extProp :: rest =>
      let ext := strTrim extProp
      match findDateProperty dateOk rest with
      | .error e => .error e
      | .ok d =>
        let fname := if ext = "" then name else name ++ "." ++ ext
        .ok (.File ⟨fname, description, some d, some id, some querypath⟩
          deletion_querypath)
  else if opencastMarker querypath then
    .ok (.Opencast name description id querypath deletion_querypath)
  else if viewMarker querypath then
    match extractRefId querypath with
    | none => .error "Could not extract id"
    | some id2 =>
      .ok (.Viewable name description id2 querypath deletion_querypath)
  else if excMarker querypath then
    .ok (.Exercise name description id querypath deletion_querypath)
  else .error "Could not get folder element"

/-- One raw listing entry of a folder page as consumed by
`FolderElement::parse` (src/folder.rs lines 250–302): the title text, the
title link's query path (`Url::parse(link).get_querypath()`, abstracted to
its result), the description text, the property texts, and the deletion
query path discovered by `get_deletion_querypath` (a secondary
fetch-and-scan of the action menu, abstracted to its result). -/
structure RawFolderEntry where
  name : String
  querypath : String
  description : String
  properties : List String
  deletion_querypath : Option String

/-- `FolderElement::parse` (src/folder.rs lines 250–302): extract the id
with the id regex, then classify by query path. -/
def FolderElement.parse (dateOk : String → Bool) (e : RawFolderEntry) :
    Except String FolderElement :=
  match extractId e.querypath with
  | none => .error ("Could not get id captures from querypath " ++ e.querypath)
  | some id =>
    FolderElement.extract_from_querypath dateOk e.querypath e.name
      e.description id e.deletion_querypath e.properties

/-- The element loop of `Folder::parse` (src/folder.rs lines 131–136): each
listing entry is parsed and any failure is propagated with
`whatever_context`, failing the whole folder parse. -/
def Folder.parseElements (dateOk : String → Bool) :
    List RawFolderEntry → Except String (List FolderElement)
  | [] => .ok []
  | e :: es =>
    match FolderElement.parse dateOk e with
    | .error msg => .error ("Could not parse folder element: " ++ msg)
    | .ok fe =>
      match Folder.parseElements dateOk es with
      | .error m => .error m
      | .ok fes => .ok (fe :: fes)

/-- C7: folder-element classification is an ordered first-match decision
over the query path — file-download, then plugin-forward, then generic-view,
then exercise-path — yielding the File, Opencast, Viewable and Exercise
variants respectively; an entry whose query path matches none of the four
markers fails its parse, and the failure propagates so the whole folder
parse fails instead of silently omitting the entry.  The five quantified
entries mirror the spec's synthetic listing. -/
theorem c7_folder_classification (dateOk : String → Bool)
    (e1 e2 e3 e4 e5 : RawFolderEntry)
    (id1 id2 id3 id4 id5 rid extProp d : String) (rest : List String)
    (hm1 : fileMarker e1.querypath = true)
    (hid1 : extractId e1.querypath = some id1)
    (hprops : e1.properties = extProp :: rest)
    (hdate : findDateProperty dateOk rest = Except.ok d)
    (hm2a : fileMarker e2.querypath = false)
    (hm2 : opencastMarker e2.querypath = true)
    (hid2 : extractId e2.querypath = some id2)
    (hm3a : fileMarker e3.querypath = false)
    (hm3b : opencastMarker e3.querypath = false)
    (hm3 : viewMarker e3.querypath = true)
    (hrid : extractRefId e3.querypath = some rid)
    (hid3 : extractId e3.querypath = some id3)
    (hm4a : fileMarker e4.querypath = false)
    (hm4b : opencastMarker e4.querypath = false)
    (hm4c : viewMarker e4.querypath = false)
    (hm4 : excMarker e4.querypath = true)
    (hid4 : extractId e4.querypath = some id4)
    (hm5a : fileMarker e5.querypath = false)
    (hm5b : opencastMarker e5.querypath = false)
    (hm5c : viewMarker e5.querypath = false)
    (hm5d : excMarker e5.querypath = false)
    (hid5 : extractId e5.querypath = some id5) :
    (FolderElement.parse dateOk e1).map FolderElement.kind =
      Except.ok ElementKind.file ∧
    (FolderElement.parse dateOk e2).map FolderElement.kind =
      Except.ok ElementKind.opencast ∧
    (FolderElement.parse dateOk e3).map FolderElement.kind =
      Except.ok ElementKind.viewable ∧
    (FolderElement.parse dateOk e4).map FolderElement.kind =
      Except.ok ElementKind.exercise ∧
    FolderElement.parse dateOk e5 =
      Except.error "Could not get folder element" ∧
    (∃ l, Folder.parseElements dateOk [e1, e2, e3, e4] = Except.ok l ∧
      l.map FolderElement.kind = [ElementKind.file, ElementKind.opencast,
        ElementKind.viewable, ElementKind.exercise]) ∧
    Folder.parseElements dateOk [e1, e2, e3, e4, e5] =
      Except.error
        ("Could not parse folder element: Could not get folder element") := by
  have p1 : FolderElement.parse dateOk e1 = Except.ok
      (FolderElement.File
        ⟨if strTrim extProp = "" then e1.name
            else e1.name ++ "." ++ strTrim extProp,
          e1.description, some d, some id1, some e1.querypath⟩
        e1.deletion_querypath) := by
    simp [FolderElement.parse, FolderElement.extract_from_querypath, hid1,
      hm1, hprops, hdate]
  have p2 : FolderElement.parse dateOk e2 = Except.ok
      (FolderElement.Opencast e2.name e2.description id2 e2.querypath
        e2.deletion_querypath) := by
    simp [FolderElement.parse, FolderElement.extract_from_querypath, hid2,
      hm2a, hm2]
  have p3 : FolderElement.parse dateOk e3 = Except.ok
      (FolderElement.Viewable e3.name e3.description rid e3.querypath
        e3.deletion_querypath) := by
    simp [FolderElement.parse, FolderElement.extract_from_querypath, hid3,
      hm3a, hm3b, hm3, hrid]
  have p4 : FolderElement.parse dateOk e4 = Except.ok
      (FolderElement.Exercise e4.name e4.description id4 e4.querypath
        e4.deletion_querypath) := by
    simp [FolderElement.parse, FolderElement.extract_from_querypath, hid4,
      hm4a, hm4b, hm4c, hm4]
  have p5 : FolderElement.parse dateOk e5 =
      Except.error "Could not get folder element" := by
    simp [FolderElement.parse, FolderElement.extract_from_querypath, hid5,
      hm5a, hm5b, hm5c, hm5d]
  have pl : Folder.parseElements dateOk [e1, e2, e3, e4] = Except.ok
      [FolderElement.File
        ⟨if strTrim extProp = "" then e1.name
            else e1.name ++ "." ++ strTrim extProp,
          e1.description, some d, some id1, some e1.querypath⟩
        e1.deletion_querypath,
      FolderElement.Opencast e2.name e2.description id2 e2.querypath
        e2.deletion_querypath,
      FolderElement.Viewable e3.name e3.description rid e3.querypath
        e3.deletion_querypath,
      FolderElement.Exercise e4.name e4.description id4 e4.querypath
        e4.deletion_querypath] := by
    simp [Folder.parseElements, p1, p2, p3, p4]
  refine ⟨by rw [p1]; rfl, by rw [p2]; rfl, by rw [p3]; rfl,
    by rw [p4]; rfl, p5, ⟨_, pl, rfl⟩, ?_⟩
  simp [Folder.parseElements, p1, p2, p3, p4, p5]

/-- C7 witness: the classification theorem at five concrete listing
entries, one per marker plus one unmatched. -/
theorem c7_witness :
    (FolderElement.parse (fun _ => true)
        ⟨"n1", "goto.php?target=file_11&cmd=sendfile", "d1", ["pdf", "dt"],
          none⟩).map FolderElement.kind = Except.ok ElementKind.file ∧
    (FolderElement.parse (fun _ => true)
        ⟨"n2",
          "ilias.php?baseClass=ilObjPluginDispatchGUI&cmd=forward&forwardCmd=showContent&ref_id=22",
          "d2", [], none⟩).map FolderElement.kind =
      Except.ok ElementKind.opencast ∧
    (FolderElement.parse (fun _ => true)
        ⟨"n3", "ilias.php?baseClass=ilrepositorygui&cmd=view&ref_id=33",
          "d3", [], none⟩).map FolderElement.kind =
      Except.ok ElementKind.viewable ∧
    (FolderElement.parse (fun _ => true)
        ⟨"n4", "goto.php/exc/44", "d4", [], none⟩).map FolderElement.kind =
      Except.ok ElementKind.exercise ∧
    Folder.parseElements (fun _ => true)
      [⟨"n1", "goto.php?target=file_11&cmd=sendfile", "d1", ["pdf", "dt"],
          none⟩,
        ⟨"n2",
          "ilias.php?baseClass=ilObjPluginDispatchGUI&cmd=forward&forwardCmd=showContent&ref_id=22",
          "d2", [], none⟩,
        ⟨"n3", "ilias.php?baseClass=ilrepositorygui&cmd=view&ref_id=33",
          "d3", [], none⟩,
        ⟨"n4", "goto.php/exc/44", "d4", [], none⟩,
        ⟨"n5", "ilias.php?baseClass=ilLMPresentationGUI&ref_id=55", "d5",
          [], none⟩] =
      Except.error
        "Could not parse folder element: Could not get folder element" := by
  have h := c7_folder_classification (fun _ => true)
    ⟨"n1", "goto.php?target=file_11&cmd=sendfile", "d1", ["pdf", "dt"], none⟩
    ⟨"n2",
      "ilias.php?baseClass=ilObjPluginDispatchGUI&cmd=forward&forwardCmd=showContent&ref_id=22",
      "d2", [], none⟩
    ⟨"n3", "ilias.php?baseClass=ilrepositorygui&cmd=view&ref_id=33", "d3",
      [], none⟩
    ⟨"n4", "goto.php/exc/44", "d4", [], none⟩
    ⟨"n5", "ilias.php?baseClass=ilLMPresentationGUI&ref_id=55", "d5", [],
      none⟩
    "11" "22" "33" "44" "55" "33" "pdf" "dt" ["dt"]
    (by decide) (by decide) rfl rfl (by decide) (by decide) (by decide)
    (by decide) (by decide) (by decide) (by decide) (by decide) (by decide)
    (by decide) (by decide) (by decide) (by decide) (by decide) (by decide)
    (by decide) (by decide) (by decide)
  exact ⟨h.1, h.2.1, h.2.2.1, h.2.2.2.1, h.2.2.2.2.2.2⟩

/- ### Grade-page submission rows (src/exercise/grades/submission.rs) -/

/-- A submission row of the grade page as queried by
`GradeSubmission::parse` (src/exercise/grades/submission.rs lines 43–137):
text of the team cell when present, text of the sign-in cell, text of the
display-name cell, the value attribute of the id checkbox, the value
attribute of the points input, and the data-action attributes of the
dropdown buttons. -/
structure SubmissionRow where
  teamCell : Option String
  signinCell : Option String
  nameCell : Option String
  idValue : Option String
  pointsValue : Option String
  actions : List String

/-- `GradeSubmission` (src/exercise/grades/submission.rs lines 17–22). -/
structure GradeSubmission where
  identifier : String
  file_feedback_querypath : String
  ilias_id : String
  points : String
deriving DecidableEq

/-- The identifier branch of `GradeSubmission::parse` (lines 65–91): team
rows are recognised by the team cell (bracket text stripped), otherwise a
signed-in user whose sign-in name contains "@" combined with a display name
whose ", " is replaced by "_"; `Ok none` is the silent skip of unassigned
users (a team cell without brackets); anything else is the unsupported
submission style error. -/
def submissionIdentifier (row : SubmissionRow) :
    Except String (Option String) :=
  match row.teamCell with
  | some teamId =>
    if !strContains teamId "(" && !strContains teamId ")" then .ok none
    else
      match stripHead ['('] (trimList teamId.toList) with
      | none => .error ("Unexpected team id (no prefix) " ++ teamId)
      | some t1 =>
        match stripTail [')'] t1 with
        | none => .error ("Unexpected team id (no suffix) " ++ teamId)
        | some t2 => .ok (some ("Team " ++ t2.asString))
  | none =>
    match row.signinCell with
    | some signin =>
      if strContains signin "@" then
        match row.nameCell with
        | some nm =>
          .ok (some ((replaceCommaSpace (trimList nm.toList)).asString ++
            "_" ++ (trimList signin.toList).asString))
        | none => .error "This submission style is not yet supported"
      else .error "This submission style is not yet supported"
    | none => .error "This submission style is not yet supported"

/-- `GradeSubmission::parse` (src/exercise/grades/submission.rs lines
43–137): identifier extraction, transliteration, then the id checkbox value
(`expect`, modelled as an error), the points input value, and the first
dropdown action carrying the file-feedback marker. -/
def GradeSubmission.parse (row : SubmissionRow) :
    Except String (Option GradeSubmission) :=
  match submissionIdentifier row with
  | .error e => .error e
  | .ok none => .ok none
  | .ok (some rawIdentifier) =>
    let identifier := translitStr rawIdentifier
    match row.idValue with
    | none => .error "Could not find ilais id"
    | some iliasId =>
      match row.pointsValue with
      | none => .error ("Did not find points for " ++ identifier)
      | some points =>
        match row.actions.find? (fun qp =>
            strContains qp "cmdClass=ilResourceCollectionGUI" ||
              strContains qp "cmd=listFiles") with
        | none =>
          .error ("Did not find file feedback querypath for " ++ identifier)
        | some feedbackQuerypath =>
          .ok (some ⟨identifier, feedbackQuerypath, iliasId, points⟩)

/-- The submission loop of `GradePage::parse`
(src/exercise/grades.rs lines 93–100): parse every row, propagate errors
(`whatever_context`), and keep the `Some` results. -/
def GradePage.parseSubmissions :
    List SubmissionRow → Except String (List GradeSubmission)
  | [] => .ok []
  | r :: rs =>
    match GradeSubmission.parse r with
    | .error e => .error ("Could not parse submission: " ++ e)
    | .ok none => GradePage.parseSubmissions rs
    | .ok (some s) =>
      match GradePage.parseSubmissions rs with
      | .error e => .error e
      | .ok ss => .ok (s :: ss)

/- ### Transliteration lemmas -/

lemma replaceChar_append (p : Char) (rep a b : List Char) :
    replaceChar p rep (a ++ b) = replaceChar p rep a ++ replaceChar p rep b := by
  induction a with
  | nil => rfl
  | cons c cs ih => by_cases h : c = p <;> simp [replaceChar, h, ih]

lemma replaceChar_of_not_mem {p : Char} {l : List Char} (rep : List Char)
    (h : p ∉ l) : replaceChar p rep l = l := by
  induction l with
  | nil => rfl
  | cons c cs ih =>
    rw [List.mem_cons, not_or] at h
    have hc : ¬ c = p := fun hh => h.1 hh.symm
    simp [replaceChar, hc, ih h.2]

lemma not_mem_replaceChar_self {p : Char} {rep l : List Char}
    (h : p ∉ rep) : p ∉ replaceChar p rep l := by
  induction l with
  | nil => simp [replaceChar]
  | cons c cs ih =>
    by_cases hc : c = p
    · simp only [replaceChar, if_pos hc]
      intro hmem
      rcases List.mem_append.mp hmem with h1 | h1
      · exact h h1
      · exact ih h1
    · simp only [replaceChar, if_neg hc]
      intro hmem
      rcases List.mem_cons.mp hmem with h1 | h1
      · exact hc h1.symm
      · exact ih h1

lemma not_mem_replaceChar_of {c p : Char} {rep l : List Char} (hl : c ∉ l)
    (hr : c ∉ rep) : c ∉ replaceChar p rep l := by
  induction l with
  | nil => simp [replaceChar]
  | cons x xs ih =>
    rw [List.mem_cons, not_or] at hl
    by_cases hx : x = p
    · simp only [replaceChar, if_pos hx]
      intro hmem
      rcases List.mem_append.mp hmem with h1 | h1
      · exact hr h1
      · exact ih hl.2 h1
    · simp only [replaceChar, if_neg hx]
      intro hmem
      rcases List.mem_cons.mp hmem with h1 | h1
      · exact hl.1 h1
      · exact ih hl.2 h1

lemma translit_no_diacritics (l : List Char) :
    'ä' ∉ translit l ∧ 'ö' ∉ translit l ∧ 'ü' ∉ translit l ∧
      'ß' ∉ translit l := by
  unfold translit
  refine ⟨?_, ?_, ?_, ?_⟩
  · apply not_mem_replaceChar_of ?_ (by decide)
    apply not_mem_replaceChar_of ?_ (by decide)
    apply not_mem_replaceChar_of ?_ (by decide)
    apply not_mem_replaceChar_of ?_ (by decide)
    apply not_mem_replaceChar_of ?_ (by decide)
    exact not_mem_replaceChar_self (by decide)
  · apply not_mem_replaceChar_of ?_ (by decide)
    exact not_mem_replaceChar_self (by decide)
  · apply not_mem_replaceChar_of ?_ (by decide)
    apply not_mem_replaceChar_of ?_ (by decide)
    apply not_mem_replaceChar_of ?_ (by decide)
    exact not_mem_replaceChar_self (by decide)
  · exact not_mem_replaceChar_self (by decide)

lemma translit_append (a b : List Char) :
    translit (a ++ b) = translit a ++ translit b := by
  unfold translit
  simp only [replaceChar_append]

lemma translitStr_append (a b : String) :
    translitStr (a ++ b) = translitStr a ++ translitStr b := by
  unfold translitStr
  rw [toList_strAppend, translit_append, asString_append]

lemma translitStr_of_clean {s : String} (h : translit s.toList = s.toList) :
    translitStr s = s := by
  unfold translitStr
  rw [h, String.asString_toList]

lemma parse_identifier_is_translit {row : SubmissionRow}
    {gs : GradeSubmission}
    (h : GradeSubmission.parse row = Except.ok (some gs)) :
    ∃ raw, gs.identifier = translitStr raw := by
  unfold GradeSubmission.parse at h
  split at h
  · cases h
  · cases h
  · split at h
    · cases h
    · split at h
      · cases h
      · split at h
        · cases h
        · have hgs := Option.some.inj (Except.ok.inj h)
          exact ⟨_, by rw [← hgs]⟩

/- ### C8 -/

/-- C8 counterexample: the claim says a row with display name
"Mustermann, Max" and a sign-in name containing "@" yields the identifier
"Max_Mustermann_(signin)".  The code replaces ", " by "_" keeping the
display-name order, so the produced identifier is
"Mustermann_Max_max.mustermann@kit.edu", not
"Max_Mustermann_max.mustermann@kit.edu". -/
theorem c8_counterexample :
    GradeSubmission.parse ⟨none, some "max.mustermann@kit.edu",
        some "Mustermann, Max", some "1234", some "5",
        ["y&cmd=listFiles"]⟩ =
      Except.ok (some ⟨"Mustermann_Max_max.mustermann@kit.edu",
        "y&cmd=listFiles", "1234", "5"⟩) ∧
    ("Mustermann_Max_max.mustermann@kit.edu" : String) ≠
      "Max_Mustermann_max.mustermann@kit.edu" :=
  ⟨rfl, by decide⟩

/-- C8 (amended): a row whose team cell holds "(42)" yields the identifier
"Team 42"; a row with display name "Mustermann, Max" and a sign-in name
containing "@" yields "Mustermann_Max_(signin)" — the display-name order is
preserved, ", " is replaced by "_"; the diacritics ä, ö, ü, ß (and their
capitals) are transliterated, e.g. display name "Müller-Käßmann, Jörg"
yields "Mueller-Kaessmann_Joerg_(signin)"; and no produced identifier ever
contains ä, ö, ü or ß. -/
theorem c8_identity_extraction (s : String)
    (hs1 : strContains s "@" = true)
    (hs2 : trimList s.toList = s.toList)
    (hs3 : translit s.toList = s.toList) :
    GradeSubmission.parse ⟨some "(42)", none, none, some "id1", some "5",
        ["x&cmd=listFiles"]⟩ =
      Except.ok (some ⟨"Team 42", "x&cmd=listFiles", "id1", "5"⟩) ∧
    GradeSubmission.parse ⟨none, some s, some "Mustermann, Max", some "id2",
        some "7", ["y&cmd=listFiles"]⟩ =
      Except.ok (some ⟨"Mustermann_Max_" ++ s, "y&cmd=listFiles", "id2",
        "7"⟩) ∧
    GradeSubmission.parse ⟨none, some s, some "Müller-Käßmann, Jörg",
        some "id3", some "9", ["z&cmd=listFiles"]⟩ =
      Except.ok (some ⟨"Mueller-Kaessmann_Joerg_" ++ s, "z&cmd=listFiles",
        "id3", "9"⟩) ∧
    (∀ (row : SubmissionRow) (gs : GradeSubmission),
      GradeSubmission.parse row = Except.ok (some gs) →
        'ä' ∉ gs.identifier.toList ∧ 'ö' ∉ gs.identifier.toList ∧
        'ü' ∉ gs.identifier.toList ∧ 'ß' ∉ gs.identifier.toList) := by
  have hid1 : submissionIdentifier ⟨none, some s, some "Mustermann, Max",
      some "id2", some "7", ["y&cmd=listFiles"]⟩ =
      Except.ok (some (("Mustermann_Max" ++ "_") ++ s)) := by
    simp only [submissionIdentifier, hs1, hs2, if_true,
      String.asString_toList]
    rfl
  have hid2 : submissionIdentifier ⟨none, some s,
      some "Müller-Käßmann, Jörg", some "id3", some "9",
      ["z&cmd=listFiles"]⟩ =
      Except.ok (some (("Müller-Käßmann_Jörg" ++ "_") ++ s)) := by
    simp only [submissionIdentifier, hs1, hs2, if_true,
      String.asString_toList]
    rfl
  have htr1 : translitStr (("Mustermann_Max" ++ "_") ++ s) =
      "Mustermann_Max_" ++ s := by
    rw [translitStr_append, translitStr_of_clean hs3]
    rfl
  have htr2 : translitStr (("Müller-Käßmann_Jörg" ++ "_") ++ s) =
      "Mueller-Kaessmann_Joerg_" ++ s := by
    rw [translitStr_append, translitStr_of_clean hs3]
    rfl
  refine ⟨rfl, ?_, ?_, ?_⟩
  · simp only [GradeSubmission.parse, hid1, htr1]
    rfl
  · simp only [GradeSubmission.parse, hid2, htr2]
    rfl
  · intro row gs h
    obtain ⟨raw, hraw⟩ := parse_identifier_is_translit h
    rw [hraw]
    unfold translitStr
    rw [List.toList_asString]
    exact translit_no_diacritics raw.toList

/-- C8 witness: the amended theorem at the concrete sign-in name
"max.mustermann@kit.edu". -/
theorem c8_witness :
    GradeSubmission.parse ⟨none, some "max.mustermann@kit.edu",
        some "Mustermann, Max", some "id2", some "7",
        ["y&cmd=listFiles"]⟩ =
      Except.ok (some ⟨"Mustermann_Max_" ++ "max.mustermann@kit.edu",
        "y&cmd=listFiles", "id2", "7"⟩) ∧
    GradeSubmission.parse ⟨none, some "max.mustermann@kit.edu",
        some "Müller-Käßmann, Jörg", some "id3", some "9",
        ["z&cmd=listFiles"]⟩ =
      Except.ok (some ⟨"Mueller-Kaessmann_Joerg_" ++
        "max.mustermann@kit.edu", "z&cmd=listFiles", "id3", "9"⟩) :=
  ⟨(c8_identity_extraction "max.mustermann@kit.edu" (by decide) rfl
      rfl).2.1,
   (c8_identity_extraction "max.mustermann@kit.edu" (by decide) rfl
      rfl).2.2.1⟩

/- ### C9 -/

/-- The team-marker shape of the claim: the row has a team cell. -/
def matchesTeamShape (row : SubmissionRow) : Bool :=
  row.teamCell.isSome

/-- The signed-in-user-plus-display-name shape of the claim: a sign-in cell
containing "@" together with a display-name cell. -/
def matchesUserShape (row : SubmissionRow) : Bool :=
  match row.signinCell with
  | some sn => strContains sn "@" && row.nameCell.isSome
  | none => false

lemma parseSubmissions_error_of_mem {rows : List SubmissionRow}
    {row : SubmissionRow} (hmem : row ∈ rows)
    (herr : ∃ e, GradeSubmission.parse row = Except.error e) :
    ∃ e, GradePage.parseSubmissions rows = Except.error e := by
  induction rows with
  | nil => cases hmem
  | cons r rs ih =>
    rcases List.mem_cons.mp hmem with heq | htail
    · obtain ⟨e, he⟩ := herr
      subst heq
      exact ⟨"Could not parse submission: " ++ e,
        by simp [GradePage.parseSubmissions, he]⟩
    · cases hr : GradeSubmission.parse r with
      | error e => exact ⟨"Could not parse submission: " ++ e,
          by simp [GradePage.parseSubmissions, hr]⟩
      | ok o =>
        obtain ⟨e, he⟩ := ih htail
        cases o with
        | none => exact ⟨e, by simp [GradePage.parseSubmissions, hr, he]⟩
        | some v => exact ⟨e, by simp [GradePage.parseSubmissions, hr, he]⟩

/-- C9: a submission row matching neither the team-marker shape nor the
signed-in-user-plus-display-name shape fails with the explicit unsupported
submission style error, and the error propagates through the grade page's
row loop: a row list containing such a row makes the whole submissions
parse fail instead of silently dropping the row. -/
theorem c9_unrecognized_rows_fail (row : SubmissionRow)
    (rows : List SubmissionRow)
    (h1 : matchesTeamShape row = false)
    (h2 : matchesUserShape row = false)
    (hmem : row ∈ rows) :
    GradeSubmission.parse row =
      Except.error "This submission style is not yet supported" ∧
    ∃ e, GradePage.parseSubmissions rows = Except.error e := by
  have htc : row.teamCell = none := by
    cases h : row.teamCell with
    | none => rfl
    | some t => rw [matchesTeamShape, h] at h1; cases h1
  have hident : submissionIdentifier row =
      Except.error "This submission style is not yet supported" := by
    unfold submissionIdentifier
    rw [htc]
    cases hsc : row.signinCell with
    | none => rfl
    | some sn =>
      unfold matchesUserShape at h2
      simp only [hsc] at h2
      cases hat : strContains sn "@" with
      | false => simp [hsc, hat]
      | true =>
        rw [hat, Bool.true_and] at h2
        have hnc : row.nameCell = none := by
          cases hn : row.nameCell with
          | none => rfl
          | some nm => rw [hn] at h2; cases h2
        simp [hsc, hat, hnc]
  have hparse : GradeSubmission.parse row =
      Except.error "This submission style is not yet supported" := by
    unfold GradeSubmission.parse
    rw [hident]
  exact ⟨hparse, parseSubmissions_error_of_mem hmem ⟨_, hparse⟩⟩

/-- C9 witness: the unsupported-shape theorem at a concrete row whose
sign-in cell lacks "@". -/
theorem c9_witness :
    GradeSubmission.parse ⟨none, some "guest", some "Name, X", some "i",
        some "p", []⟩ =
      Except.error "This submission style is not yet supported" ∧
    ∃ e, GradePage.parseSubmissions [⟨none, some "guest", some "Name, X",
        some "i", some "p", []⟩] = Except.error e :=
  c9_unrecognized_rows_fail
    ⟨none, some "guest", some "Name, X", some "i", some "p", []⟩
    [⟨none, some "guest", some "Name, X", some "i", some "p", []⟩]
    rfl (by decide) (List.mem_singleton.mpr rfl)

end IliasRs
